import Mathlib

/-!
Shallow embedding of the backtest system order-execution engine
(`src/execution.py`), ledger (`src/stats.py`) and holdings update
(`src/strategies/reversal.py`).

Dates are embedded as proleptic-Gregorian ordinals (`Nat`), exactly the
total order used by Python `datetime.date` (`date.toordinal`); ordinal 1 is
0001-01-01, a Monday.  Prices and cash are embedded as `Rat`.  The
commission function is an abstract parameter, as in the source where it is
injected into `BacktestBroker.__init__`.
-/

namespace Backtest

/-- `Action` enum from `src/execution.py`: `SELL = 1`, `BUY = 2`.
The declaration order matters: the Python loop `for action in Action` iterates in
definition order, i.e. SELL first. -/
inductive Action where
  | SELL
  | BUY
deriving DecidableEq, Repr

/-- `Status` enum from `src/execution.py`. -/
inductive Status where
  | OPEN
  | COMPLETE
  | CANCELLED
deriving DecidableEq, Repr

/-- `TimeInForce` enum from `src/execution.py`. -/
inductive TimeInForce where
  | DAY
  | GTC
  | IOC
  | FOK
deriving DecidableEq, Repr

/-- The `Order` class hierarchy (`Order` / `MarketOrder` / `LimitOrder` /
`StopLimitOrder`) as a tagged variant: the kind-specific payload. -/
inductive OrderKind where
  | market
  | limit (limit_price : Rat) (time_in_force : TimeInForce)
  | stopLimit (stop_price : Rat) (limit_price : Rat) (time_in_force : TimeInForce)
deriving DecidableEq, Repr

/-- The shared fields of `Order` (`src/execution.py`).  `initiated_at` and
`executed_at` are date ordinals; `fill_price` is `None` until filled. -/
structure Order where
  initiated_at : Nat
  executed_at : Option Nat := none
  action : Action
  status : Status := .OPEN
  ticker : String
  quantity : Int
  fill_price : Option Rat := none
  commission_paid : Rat := 0
  kind : OrderKind
deriving DecidableEq, Repr

/-- One row of the daily snapshot dataframe: the two columns
`execute_orders` reads, `Price` (close) and `from Open`. -/
structure SnapRow where
  price : Rat
  fromOpen : Rat
deriving DecidableEq, Repr

/-- The daily snapshot, indexed by ticker (the dataframe `data`). -/
def Snapshot := List (String × SnapRow)

/-- `data.loc[ticker, ...]` row lookup; `none` models the `KeyError`
pandas raises for an absent ticker. -/
def Snapshot.lookup (data : Snapshot) (ticker : String) : Option SnapRow :=
  match data with
  | [] => none
  | (t, row) :: rest => if t = ticker then some row else Snapshot.lookup rest ticker

/-- `BacktestBroker.order_book`: orders partitioned by (action, status). -/
structure OrderBook where
  sellOpen : List Order := []
  sellComplete : List Order := []
  sellCancelled : List Order := []
  buyOpen : List Order := []
  buyComplete : List Order := []
  buyCancelled : List Order := []
deriving DecidableEq, Repr

/-- The OPEN bucket for an action. -/
def OrderBook.openBucket (b : OrderBook) : Action → List Order
  | .SELL => b.sellOpen
  | .BUY => b.buyOpen

/-- `pd.bdate_range(dt, dt)` with the default business-day frequency:
the singleton range when `dt` is a Monday-through-Friday, empty otherwise.
Ordinal 1 is a Monday, so the weekday index (Monday = 0, as in Python
`date.weekday()`) of ordinal `d` is `(d + 6) % 7`. -/
def weekdayIndex (d : Nat) : Nat := (d + 6) % 7

/-- Length of `pd.bdate_range(dt, dt)`. -/
def bdate_range_count (d : Nat) : Nat :=
  if weekdayIndex d < 5 then 1 else 0

/-- `BacktestBroker.is_business_day` (`src/execution.py` lines 116-118):
`bool(len(pd.bdate_range(dt, dt)))`. -/
def is_business_day (d : Nat) : Bool :=
  bdate_range_count d ≠ 0

/-- `BacktestBroker.verify_funds` (`src/execution.py` lines 120-121). -/
def verify_funds (commission : Int → Rat → Rat) (quantity : Int)
    (fill_price : Rat) (cash : Rat) : Bool :=
  decide ((quantity : Rat) * fill_price + commission quantity fill_price ≤ cash)

/-- The mutations performed on an order when it fills
(`src/execution.py` lines 143-155). -/
def fillOrder (commission : Int → Rat → Rat) (currentDate : Nat)
    (price : Rat) (o : Order) : Order :=
  { o with
    fill_price := some price
    executed_at := some currentDate
    status := .COMPLETE
    commission_paid := commission o.quantity price }

/-- Errors that escape `execute_orders`: the pandas `KeyError` raised by
`data.loc[order.ticker, "Price"]` when the ticker is absent. -/
inductive ExecError where
  | keyError (ticker : String)
deriving DecidableEq, Repr

/-- Outcome of the loop body of `execute_orders` for one open order. -/
inductive StepOutcome where
  | skip
  | keep
  | fill (filled : Order)
  | err (e : ExecError)
deriving DecidableEq, Repr

/-- The loop body of `execute_orders` (`src/execution.py` lines 133-156)
for a single open order:
`skip` is the `continue` for `initiated_at >= current_date` (taken before
the snapshot lookup, so a same-day order can never raise `KeyError`);
`err` is the uncaught `KeyError` for an absent ticker; `fill` carries the
filled order; `keep` is the final `else: continue` (a market order failing
the funds check, a limit order failing funds or the price-range check, and
a stop-limit order, which matches neither `isinstance` branch). -/
def stepOrder (commission : Int → Rat → Rat) (data : Snapshot)
    (currentDate : Nat) (cash : Rat) (o : Order) : StepOutcome :=
  if currentDate ≤ o.initiated_at then .skip
  else
    match data.lookup o.ticker with
    | none => .err (.keyError o.ticker)
    | some row =>
      let close_price := row.price
      let open_price := close_price / (1 + row.fromOpen)
      match o.kind with
      | .market =>
        if verify_funds commission o.quantity open_price cash then
          .fill (fillOrder commission currentDate open_price o)
        else .keep
      | .limit lp _ =>
        if verify_funds commission o.quantity lp cash
            ∧ open_price ≤ lp ∧ lp ≤ close_price then
          .fill (fillOrder commission currentDate lp o)
        else .keep
      | .stopLimit _ _ _ => .keep

/-- Result of running `execute_orders` over one OPEN bucket:
who is left OPEN, who filled (in evaluation order), and whether an
exception was raised (everything after the raising order untouched). -/
structure BucketResult where
  stillOpen : List Order
  fills : List Order
  err : Option ExecError
deriving DecidableEq, Repr

/-- The inner loop of `execute_orders` over one OPEN bucket (the loop
iterates over a `.copy()` of the bucket and `remove`s each filled order,
so the bucket ends as the unfilled orders in their original order; on the
uncaught `KeyError` the raising order and all later ones stay OPEN and no
later order is evaluated). -/
def processBucket (commission : Int → Rat → Rat) (data : Snapshot)
    (currentDate : Nat) (cash : Rat) : List Order → BucketResult
  | [] => ⟨[], [], none⟩
  | o :: rest =>
    match stepOrder commission data currentDate cash o with
    | .skip =>
      let r := processBucket commission data currentDate cash rest
      ⟨o :: r.stillOpen, r.fills, r.err⟩
    | .keep =>
      let r := processBucket commission data currentDate cash rest
      ⟨o :: r.stillOpen, r.fills, r.err⟩
    | .fill f =>
      let r := processBucket commission data currentDate cash rest
      ⟨r.stillOpen, f :: r.fills, r.err⟩
    | .err e => ⟨o :: rest, [], some e⟩

/-- Observable outcome of one `execute_orders` call: the order book after
the call, the `executed_orders` list, and the escaped exception if any
(when `err` is `some`, Python returns nothing, but the book mutations made
before the raise persist and `fills` records the orders moved to
COMPLETE). -/
structure ExecResult where
  book : OrderBook
  fills : List Order
  err : Option ExecError
deriving DecidableEq, Repr

/-- `BacktestBroker.execute_orders` (`src/execution.py` lines 123-158).
Returns `[]` at once on a non-business day; otherwise processes the SELL
OPEN bucket then the BUY OPEN bucket (`for action in Action` iterates the
enum in definition order: SELL = 1 first), against the single `cash`
argument throughout. -/
def execute_orders (commission : Int → Rat → Rat) (book : OrderBook)
    (data : Snapshot) (currentDate : Nat) (cash : Rat) : ExecResult :=
  if ¬ is_business_day currentDate then ⟨book, [], none⟩
  else
    let rs := processBucket commission data currentDate cash book.sellOpen
    match rs.err with
    | some e =>
      ⟨{ book with sellOpen := rs.stillOpen,
                   sellComplete := book.sellComplete ++ rs.fills },
       rs.fills, some e⟩
    | none =>
      let rb := processBucket commission data currentDate cash book.buyOpen
      ⟨{ book with sellOpen := rs.stillOpen,
                   sellComplete := book.sellComplete ++ rs.fills,
                   buyOpen := rb.stillOpen,
                   buyComplete := book.buyComplete ++ rb.fills },
       rs.fills ++ rb.fills, rb.err⟩

/-- `BacktestBroker.place_order` (`src/execution.py` lines 160-162): the
order is appended to the OPEN bucket of its action.  The body performs no
validation (the trailing `# verify order details` comment is not code). -/
def place_order (book : OrderBook) (o : Order) : OrderBook :=
  match o.action with
  | .SELL => { book with sellOpen := book.sellOpen ++ [o] }
  | .BUY => { book with buyOpen := book.buyOpen ++ [o] }

/-! ### Ledger: `StatsHandler` from `src/stats.py` -/

/-- One row of `StatsHandler.equity_curve`: the columns Date, Cash,
Equity, Total Value and Commission Paid. -/
structure LedgerEntry where
  date : Nat
  cash : Rat
  equity : Rat
  total_value : Rat
  commission_paid : Rat
deriving DecidableEq, Repr

/-- `StatsHandler.equity_curve`.  The row created by `__init__` carries
the dataframe index label `"Date"` (a string), while every row written by
`update_on_order` is indexed by its date, so the seed row is kept apart
from the date-indexed rows: `.loc[current_date]` can never address it. -/
structure EquityCurve where
  initEntry : LedgerEntry
  rows : List LedgerEntry
deriving DecidableEq, Repr

/-- All rows of the curve, in positional order. -/
def EquityCurve.entries (cur : EquityCurve) : List LedgerEntry :=
  cur.initEntry :: cur.rows

/-- `StatsHandler.__init__` (`src/stats.py` lines 9-16): seeds the curve
with one entry of all cash, zero equity, total value = cash. -/
def statsInit (start_date : Nat) (cash : Rat) : EquityCurve :=
  ⟨⟨start_date, cash, 0, cash, 0⟩, []⟩

/-- `self.equity_curve.iloc[-1]`: the last positional row. -/
def lastEntry (cur : EquityCurve) : LedgerEntry :=
  cur.rows.getLast?.getD cur.initEntry

/-- `StatsHandler.update_on_order` (`src/stats.py` lines 31-48): reads the
last row, moves `quantity * fill_price` between cash and equity according
to the action, deducts the commission from cash, accumulates it, and
writes the row `.loc[current_date]` with `Total Value` set to
`updated_cash + updated_equity` (replacing the row for that date if one
exists, appending otherwise).  The source reads `order.fill_price`
unconditionally; it is only ever called on filled orders, so the `none`
default `0` is never exercised on the source path. -/
def update_on_order (cur : EquityCurve) (currentDate : Nat) (o : Order) :
    EquityCurve :=
  let prev := lastEntry cur
  let fp := o.fill_price.getD 0
  let cash1 := prev.cash - o.commission_paid
  let comm1 := prev.commission_paid + o.commission_paid
  let cash2 :=
    match o.action with
    | .SELL => cash1 + (o.quantity : Rat) * fp
    | .BUY => cash1 - (o.quantity : Rat) * fp
  let eq2 :=
    match o.action with
    | .SELL => prev.equity - (o.quantity : Rat) * fp
    | .BUY => prev.equity + (o.quantity : Rat) * fp
  let e : LedgerEntry := ⟨currentDate, cash2, eq2, cash2 + eq2, comm1⟩
  if cur.rows.any (fun r => r.date = currentDate) then
    ⟨cur.initEntry, cur.rows.map fun r => if r.date = currentDate then e else r⟩
  else
    ⟨cur.initEntry, cur.rows ++ [e]⟩

/-- The equity curves reachable in a run: the seeded curve, extended by
any sequence of `update_on_order` calls. -/
inductive ReachableCurve : EquityCurve → Prop where
  | init (start_date : Nat) (cash : Rat) : ReachableCurve (statsInit start_date cash)
  | step (cur : EquityCurve) (currentDate : Nat) (o : Order) :
      ReachableCurve cur → ReachableCurve (update_on_order cur currentDate o)

/-! ### Holdings: the portfolio update of `Reversal.process_orders`
(`src/strategies/reversal.py` lines 64-90) -/

/-- One row of `Reversal.portfolio` as touched by the per-order update:
the Price, Quantity and Cost columns (pandas stores them as floats). -/
structure Holding where
  price : Rat
  quantity : Rat
  cost : Rat
deriving DecidableEq, Repr

/-- The portfolio dataframe, indexed by ticker. -/
def Portfolio := List (String × Holding)

/-- `order.ticker in self.portfolio.index` plus the row read. -/
def Portfolio.lookup (p : Portfolio) (ticker : String) : Option Holding :=
  match p with
  | [] => none
  | (t, h) :: rest => if t = ticker then some h else Portfolio.lookup rest ticker

/-- Row replacement at a ticker (`self.portfolio.loc[ticker, col] = ...`). -/
def Portfolio.replace (p : Portfolio) (ticker : String) (h : Holding) : Portfolio :=
  p.map fun th => if th.1 = ticker then (ticker, h) else th

/-- `self.portfolio.drop([ticker])`. -/
def Portfolio.dropTicker (p : Portfolio) (ticker : String) : Portfolio :=
  p.filter fun th => th.1 ≠ ticker

/-- New-row insert followed by `sort_values("Ticker")`: on a
ticker-sorted frame this is ordered insertion. -/
def Portfolio.insertSorted (p : Portfolio) (ticker : String) (h : Holding) : Portfolio :=
  match p with
  | [] => [(ticker, h)]
  | (t0, h0) :: rest =>
    if ticker ≤ t0 then (ticker, h) :: (t0, h0) :: rest
    else (t0, h0) :: Portfolio.insertSorted rest ticker h

/-- The portfolio update for one executed order inside
`Reversal.process_orders` (`src/strategies/reversal.py` lines 69-88).
On a SELL against an existing row: Price := fill price, Quantity
decremented, row dropped when Quantity reaches exactly 0.  On a BUY
against an existing row (lines 76-80): Cost is recomputed from the OLD
Price and Quantity as `Price / Quantity + fill_price / quantity` — a sum
of two per-share ratios, not a weighted average — then Price := fill
price and Quantity incremented.  Without an existing row a new row is
created at the fill price.  (The watchlist bookkeeping and the post-loop
column recomputation of lines 92-96 touch no field read here and are not
modelled.) -/
def processOrderPortfolio (p : Portfolio) (o : Order) : Portfolio :=
  let fp := o.fill_price.getD 0
  match p.lookup o.ticker with
  | some h =>
    match o.action with
    | .SELL =>
      let h1 : Holding := { h with price := fp, quantity := h.quantity - (o.quantity : Rat) }
      if h1.quantity = 0 then p.dropTicker o.ticker
      else p.replace o.ticker h1
    | .BUY =>
      let newCost := h.price / h.quantity + fp / (o.quantity : Rat)
      p.replace o.ticker { price := fp, quantity := h.quantity + (o.quantity : Rat), cost := newCost }
  | none =>
    p.insertSorted o.ticker { price := fp, quantity := (o.quantity : Rat), cost := fp }

/-- The cost-basis formula the spec prescribes (section 4.3): the standard
quantity-weighted average.  Stated from the words of the spec, for
comparison against the source formula in `processOrderPortfolio`. -/
def spec_weighted_avg_cost (old_cost : Rat) (old_qty : Int)
    (fill_price : Rat) (fill_qty : Int) : Rat :=
  (old_cost * (old_qty : Rat) + fill_price * (fill_qty : Rat)) / ((old_qty : Rat) + (fill_qty : Rat))

/-! ### Calendar: proleptic-Gregorian ordinals, as in Python `datetime.date` -/

/-- Day of the week. -/
inductive Weekday where
  | monday
  | tuesday
  | wednesday
  | thursday
  | friday
  | saturday
  | sunday
deriving DecidableEq, Repr

/-- The weekday of a date ordinal (ordinal 1 = 0001-01-01 is a Monday). -/
def dayOfWeek (d : Nat) : Weekday :=
  if weekdayIndex d = 0 then .monday
  else if weekdayIndex d = 1 then .tuesday
  else if weekdayIndex d = 2 then .wednesday
  else if weekdayIndex d = 3 then .thursday
  else if weekdayIndex d = 4 then .friday
  else if weekdayIndex d = 5 then .saturday
  else .sunday

/-- Gregorian leap year. -/
def isLeapYear (y : Nat) : Bool :=
  (y % 4 = 0 ∧ y % 100 ≠ 0) ∨ y % 400 = 0

/-- Days in the months before month `m` of a year (1-based month). -/
def daysBeforeMonth (m : Nat) (leap : Bool) : Nat :=
  let base :=
    match m with
    | 1 => 0 | 2 => 31 | 3 => 59 | 4 => 90 | 5 => 120 | 6 => 151
    | 7 => 181 | 8 => 212 | 9 => 243 | 10 => 273 | 11 => 304 | _ => 334
  if leap ∧ 3 ≤ m then base + 1 else base

/-- Days in the years before year `y` (1-based year). -/
def daysBeforeYear (y : Nat) : Nat :=
  (y - 1) * 365 + (y - 1) / 4 - (y - 1) / 100 + (y - 1) / 400

/-- `datetime.date(y, m, d).toordinal()`: the proleptic-Gregorian ordinal
of a calendar date (0001-01-01 is ordinal 1). -/
def dateOrdinal (y m d : Nat) : Nat :=
  daysBeforeYear y + daysBeforeMonth m (isLeapYear y) + d

/-! ### Concrete instances used to exercise the definitions
(ordinal 1 is a Monday, so ordinal 2 is a Tuesday and ordinal 6 a
Saturday). -/

/-- A commission function that always charges nothing. -/
def zeroCommission : Int → Rat → Rat := fun _ _ => 0

/-- Snapshot with one ticker AAA: close 50, change from open 0, so the
derived open is 50. -/
def snapA : Snapshot := [("AAA", ⟨50, 0⟩)]

/-- Snapshot with one ticker BBB: close 46, change from open 1/22, so the
derived open is 46 / (1 + 1/22) = 44. -/
def snapB : Snapshot := [("BBB", ⟨46, 1/22⟩)]

/-- Market BUY of 1 AAA placed on day 1. -/
def mktA1 : Order :=
  { initiated_at := 1, action := .BUY, ticker := "AAA", quantity := 1, kind := .market }

/-- Market BUY of 1 AAA placed on day 0 (distinct from `mktA1`). -/
def mktA0 : Order :=
  { initiated_at := 0, action := .BUY, ticker := "AAA", quantity := 1, kind := .market }

/-- Market SELL of 1 AAA placed on day 1. -/
def sellA : Order :=
  { initiated_at := 1, action := .SELL, ticker := "AAA", quantity := 1, kind := .market }

/-- Market BUY of 1 AAA placed on day 2 (same-day when executed on day 2). -/
def sameDayA : Order :=
  { initiated_at := 2, action := .BUY, ticker := "AAA", quantity := 1, kind := .market }

/-- Limit BUY of 1 BBB at limit 45, inside the day range [44, 46] of `snapB`. -/
def limIn : Order :=
  { initiated_at := 1, action := .BUY, ticker := "BBB", quantity := 1,
    kind := .limit 45 .DAY }

/-- Limit BUY of 1 BBB at limit 40, outside the day range [44, 46] of `snapB`. -/
def limOut : Order :=
  { initiated_at := 1, action := .BUY, ticker := "BBB", quantity := 1,
    kind := .limit 40 .GTC }

/-- Market SELL of 1 ZZZ placed on day 1; ZZZ is absent from `snapA`. -/
def badTickerOrder : Order :=
  { initiated_at := 1, action := .SELL, ticker := "ZZZ", quantity := 1, kind := .market }

/-- An order violating both placement rules of the spec: quantity 0 and
empty ticker. -/
def badOrder : Order :=
  { initiated_at := 1, action := .BUY, ticker := "", quantity := 0, kind := .market }

/-- Market BUY of 1 AAA placed 2021-12-23, for execution on 2021-12-24
(a Friday on which the NYSE was closed for Christmas). -/
def mktHoliday : Order :=
  { initiated_at := dateOrdinal 2021 12 23, action := .BUY, ticker := "AAA",
    quantity := 1, kind := .market }

/-- An empty order book. -/
def emptyBook : OrderBook := {}

/-- Two market BUY orders each costing 50, against cash 60: each fits
alone, together they exceed the cash. -/
def bookTwoBuys : OrderBook := { buyOpen := [mktA1, mktA0] }

/-- A same-day order ahead of a fillable one. -/
def bookSameDay : OrderBook := { buyOpen := [sameDayA, mktA1] }

/-- An in-range and an out-of-range limit order. -/
def bookLimits : OrderBook := { buyOpen := [limIn, limOut] }

/-- One open SELL and one open BUY, both fillable. -/
def bookSellBuy : OrderBook := { sellOpen := [sellA], buyOpen := [mktA1] }

/-- An absent-ticker order ahead of a fillable SELL. -/
def bookBadFirst : OrderBook := { sellOpen := [badTickerOrder, sellA] }

/-- Only the fillable SELL of `bookBadFirst`. -/
def bookGoodOnly : OrderBook := { sellOpen := [sellA] }

/-- A fillable order for the 2021-12-24 holiday run. -/
def bookHoliday : OrderBook := { buyOpen := [mktHoliday] }

/-- A portfolio holding 2 shares of AAA at Price 10 and Cost 10. -/
def pfAAA : Portfolio := [("AAA", ⟨10, 2, 10⟩)]

/-- A completed BUY of 3 AAA filled at 20, as handed to
`Reversal.process_orders`. -/
def buyFillAAA : Order :=
  { initiated_at := 1, executed_at := some 2, action := .BUY, status := .COMPLETE,
    ticker := "AAA", quantity := 3, fill_price := some 20, kind := .market }

/-- A completed SELL of 10 AAA filled at 50 with commission 3, as handed
to `StatsHandler.update_on_order`. -/
def sellFillLedger : Order :=
  { initiated_at := 1, executed_at := some 2, action := .SELL, status := .COMPLETE,
    ticker := "AAA", quantity := 10, fill_price := some 50, commission_paid := 3,
    kind := .market }

/-! ### Helper lemmas about the execution engine -/

/-- A passed funds check bounds the cost of the trade by the cash. -/
theorem verify_funds_le {c : Int → Rat → Rat} {q : Int} {p cash : Rat}
    (h : verify_funds c q p cash = true) :
    (q : Rat) * p + c q p ≤ cash := of_decide_eq_true h

/-- An order initiated on or after the call date is skipped. -/
theorem stepOrder_skip {c : Int → Rat → Rat} {data : Snapshot} {d : Nat} {cash : Rat}
    {o : Order} (h : d ≤ o.initiated_at) :
    stepOrder c data d cash o = .skip := by
  simp [stepOrder, h]

/-- Characterization of a fill: the order was initiated strictly before
the call date, its ticker is in the snapshot, and it filled either as a
market order at the derived open price, or as a limit order at its limit
price with the funds check and the open-close range check passed. -/
theorem stepOrder_fill_spec {c : Int → Rat → Rat} {data : Snapshot} {d : Nat}
    {cash : Rat} {o f : Order}
    (h : stepOrder c data d cash o = .fill f) :
    o.initiated_at < d ∧ ∃ row, data.lookup o.ticker = some row ∧
      ((o.kind = .market ∧
          verify_funds c o.quantity (row.price / (1 + row.fromOpen)) cash = true ∧
          f = fillOrder c d (row.price / (1 + row.fromOpen)) o) ∨
        (∃ lp tif, o.kind = .limit lp tif ∧
          verify_funds c o.quantity lp cash = true ∧
          row.price / (1 + row.fromOpen) ≤ lp ∧ lp ≤ row.price ∧
          f = fillOrder c d lp o)) := by
  unfold stepOrder at h
  split at h
  · simp at h
  next hd =>
    refine ⟨by omega, ?_⟩
    cases hl : data.lookup o.ticker with
    | none => rw [hl] at h; simp at h
    | some row =>
      rw [hl] at h
      simp only at h
      split at h
      next hk =>
        split at h
        next hv => exact ⟨row, rfl, Or.inl ⟨hk, hv, (StepOutcome.fill.inj h).symm⟩⟩
        next => exact absurd h (by simp)
      next lp tif hk =>
        split at h
        next hv =>
          exact ⟨row, rfl, Or.inr ⟨lp, tif, hk, hv.1, hv.2.1, hv.2.2,
            (StepOutcome.fill.inj h).symm⟩⟩
        next => exact absurd h (by simp)
      next => exact absurd h (by simp)

/-- A limit order whose limit price is outside the derived [open, close]
range is kept OPEN by the loop body. -/
theorem stepOrder_keep_of_limit_out_of_range {c : Int → Rat → Rat} {data : Snapshot}
    {d : Nat} {cash : Rat} {o : Order} {lp : Rat} {tif : TimeInForce} {row : SnapRow}
    (hk : o.kind = .limit lp tif) (hd : o.initiated_at < d)
    (hrow : data.lookup o.ticker = some row)
    (hout : ¬(row.price / (1 + row.fromOpen) ≤ lp ∧ lp ≤ row.price)) :
    stepOrder c data d cash o = .keep := by
  unfold stepOrder
  rw [if_neg (by omega), hrow]
  simp only
  rw [hk]
  exact if_neg fun hcon => hout ⟨hcon.2.1, hcon.2.2⟩

/-- Every order in the fills of a bucket run originates from an order in
the bucket on which the loop body fired a fill. -/
theorem processBucket_fills_spec {c : Int → Rat → Rat} {data : Snapshot} {d : Nat}
    {cash : Rat} :
    ∀ (l : List Order) (f : Order), f ∈ (processBucket c data d cash l).fills →
      ∃ o, o ∈ l ∧ stepOrder c data d cash o = .fill f := by
  intro l
  induction l with
  | nil => intro f hf; simp [processBucket] at hf
  | cons a rest ih =>
    intro f hf
    cases hsa : stepOrder c data d cash a with
    | skip =>
      simp only [processBucket, hsa] at hf
      obtain ⟨o, ho, hso⟩ := ih f hf
      exact ⟨o, List.mem_cons_of_mem _ ho, hso⟩
    | keep =>
      simp only [processBucket, hsa] at hf
      obtain ⟨o, ho, hso⟩ := ih f hf
      exact ⟨o, List.mem_cons_of_mem _ ho, hso⟩
    | fill f0 =>
      simp only [processBucket, hsa, List.mem_cons] at hf
      rcases hf with hf | hf
      · exact ⟨a, List.mem_cons_self _ _, by rw [hsa, hf]⟩
      · obtain ⟨o, ho, hso⟩ := ih f hf
        exact ⟨o, List.mem_cons_of_mem _ ho, hso⟩
    | err e => simp only [processBucket, hsa] at hf; simp at hf

/-- An order of the bucket on which the loop body does not fire a fill
(it skips or keeps) is still OPEN after the bucket run. -/
theorem processBucket_stillOpen_of_not_fill {c : Int → Rat → Rat} {data : Snapshot}
    {d : Nat} {cash : Rat} :
    ∀ (l : List Order) (o : Order), o ∈ l →
      (stepOrder c data d cash o = .skip ∨ stepOrder c data d cash o = .keep) →
      o ∈ (processBucket c data d cash l).stillOpen := by
  intro l
  induction l with
  | nil => intro o ho _; simp at ho
  | cons a rest ih =>
    intro o ho hstep
    rcases List.mem_cons.1 ho with rfl | ho
    · rcases hstep with hs | hs <;> simp [processBucket, hs]
    · cases hsa : stepOrder c data d cash a with
      | skip => simp only [processBucket, hsa]; exact List.mem_cons_of_mem _ (ih o ho hstep)
      | keep => simp only [processBucket, hsa]; exact List.mem_cons_of_mem _ (ih o ho hstep)
      | fill f0 => simp only [processBucket, hsa]; exact ih o ho hstep
      | err e => simp only [processBucket, hsa]; exact List.mem_cons_of_mem _ ho

/-- A bucket whose first order is initiated before the call date but
absent from the snapshot raises at once: every order stays OPEN, nothing
fills, and the `KeyError` escapes. -/
theorem processBucket_keyError {c : Int → Rat → Rat} {data : Snapshot} {d : Nat}
    {cash : Rat} {o : Order} {rest : List Order}
    (hd : o.initiated_at < d) (hl : data.lookup o.ticker = none) :
    processBucket c data d cash (o :: rest) = ⟨o :: rest, [], some (.keyError o.ticker)⟩ := by
  have hso : stepOrder c data d cash o = .err (.keyError o.ticker) := by
    unfold stepOrder
    rw [if_neg (by omega), hl]
  simp [processBucket, hso]

/-- Every executed order of a call originates from an order of one of the
two OPEN buckets on which the loop body fired a fill. -/
theorem execute_orders_fills_spec {c : Int → Rat → Rat} {book : OrderBook}
    {data : Snapshot} {d : Nat} {cash : Rat} {f : Order}
    (hf : f ∈ (execute_orders c book data d cash).fills) :
    ∃ o, (o ∈ book.sellOpen ∨ o ∈ book.buyOpen) ∧ stepOrder c data d cash o = .fill f := by
  unfold execute_orders at hf
  split at hf
  · simp at hf
  · simp only at hf
    split at hf
    · obtain ⟨o, ho, hso⟩ := processBucket_fills_spec _ f hf
      exact ⟨o, Or.inl ho, hso⟩
    · simp only [List.mem_append] at hf
      rcases hf with hf | hf
      · obtain ⟨o, ho, hso⟩ := processBucket_fills_spec _ f hf
        exact ⟨o, Or.inl ho, hso⟩
      · obtain ⟨o, ho, hso⟩ := processBucket_fills_spec _ f hf
        exact ⟨o, Or.inr ho, hso⟩

/-- An open SELL order that skips or keeps is still in the SELL OPEN
bucket after the call. -/
theorem execute_orders_mem_sellOpen {c : Int → Rat → Rat} {book : OrderBook}
    {data : Snapshot} {d : Nat} {cash : Rat} {o : Order}
    (ho : o ∈ book.sellOpen)
    (hstep : stepOrder c data d cash o = .skip ∨ stepOrder c data d cash o = .keep) :
    o ∈ (execute_orders c book data d cash).book.sellOpen := by
  unfold execute_orders
  split
  · exact ho
  · simp only
    split
    · exact processBucket_stillOpen_of_not_fill _ o ho hstep
    · exact processBucket_stillOpen_of_not_fill _ o ho hstep

/-- An open BUY order that skips or keeps is still in the BUY OPEN bucket
after the call. -/
theorem execute_orders_mem_buyOpen {c : Int → Rat → Rat} {book : OrderBook}
    {data : Snapshot} {d : Nat} {cash : Rat} {o : Order}
    (ho : o ∈ book.buyOpen)
    (hstep : stepOrder c data d cash o = .skip ∨ stepOrder c data d cash o = .keep) :
    o ∈ (execute_orders c book data d cash).book.buyOpen := by
  unfold execute_orders
  split
  · exact ho
  · simp only
    split
    · exact ho
    · exact processBucket_stillOpen_of_not_fill _ o ho hstep

/-- `execute_orders` never touches the CANCELLED buckets. -/
theorem execute_orders_cancelled_unchanged (c : Int → Rat → Rat) (book : OrderBook)
    (data : Snapshot) (d : Nat) (cash : Rat) :
    (execute_orders c book data d cash).book.sellCancelled = book.sellCancelled ∧
    (execute_orders c book data d cash).book.buyCancelled = book.buyCancelled := by
  unfold execute_orders
  split
  · exact ⟨rfl, rfl⟩
  · simp only
    split <;> exact ⟨rfl, rfl⟩

/-- A fill reported by a bucket run keeps the action of the bucket order
it came from. -/
theorem processBucket_fills_action {c : Int → Rat → Rat} {data : Snapshot}
    {d : Nat} {cash : Rat} (l : List Order) (f : Order)
    (hf : f ∈ (processBucket c data d cash l).fills) :
    ∃ o, o ∈ l ∧ f.action = o.action := by
  obtain ⟨o, ho, hso⟩ := processBucket_fills_spec l f hf
  obtain ⟨_, row, _, hcase⟩ := stepOrder_fill_spec hso
  rcases hcase with ⟨_, _, rfl⟩ | ⟨lp, tif, _, _, _, _, rfl⟩ <;> exact ⟨o, ho, rfl⟩

/-! ### The claims -/

/-- C2: every order filled by a call to `execute_orders` satisfies
`quantity * fill_price + commission(quantity, fill_price) <= cash`, where
`cash` is the single cash value passed to that call: the funds check of
every order in the call compares against this same fixed value, never
against a balance decremented by earlier fills in the call. -/
theorem C2_funds_checked_against_call_cash (c : Int → Rat → Rat) (book : OrderBook)
    (data : Snapshot) (d : Nat) (cash : Rat) (f : Order)
    (hf : f ∈ (execute_orders c book data d cash).fills) :
    (f.quantity : Rat) * f.fill_price.getD 0 + c f.quantity (f.fill_price.getD 0) ≤ cash := by
  obtain ⟨o, _, hso⟩ := execute_orders_fills_spec hf
  obtain ⟨_, row, hrow, hcase⟩ := stepOrder_fill_spec hso
  rcases hcase with ⟨_, hv, rfl⟩ | ⟨lp, tif, _, hv, _, _, rfl⟩
  · simpa [fillOrder] using verify_funds_le hv
  · simpa [fillOrder] using verify_funds_le hv

/-- Witness for C2 at a concrete over-commitment: two BUY orders each
costing 50 both fill against cash 60 (the second is checked against the
same 60 although the first already consumed 50), and the theorem applies
to the second fill. -/
theorem C2_funds_checked_against_call_cash_witness :
    fillOrder zeroCommission 2 50 mktA0 ∈
      (execute_orders zeroCommission bookTwoBuys snapA 2 60).fills ∧
    ((fillOrder zeroCommission 2 50 mktA0).quantity : Rat) *
        (fillOrder zeroCommission 2 50 mktA0).fill_price.getD 0 +
      zeroCommission (fillOrder zeroCommission 2 50 mktA0).quantity
        ((fillOrder zeroCommission 2 50 mktA0).fill_price.getD 0) ≤ 60 := by
  have hmem : fillOrder zeroCommission 2 50 mktA0 ∈
      (execute_orders zeroCommission bookTwoBuys snapA 2 60).fills := by
    norm_num [execute_orders, processBucket, stepOrder, verify_funds, fillOrder,
      Snapshot.lookup, is_business_day, bdate_range_count, weekdayIndex,
      bookTwoBuys, snapA, mktA1, mktA0, zeroCommission]
  exact ⟨hmem, C2_funds_checked_against_call_cash zeroCommission bookTwoBuys snapA 2 60 _ hmem⟩

/-- C3: in a call to `execute_orders` on date `d`, every filled order was
initiated strictly before `d` (a same-day order is never evaluated and
stays in its OPEN bucket), and every market fill has its fill price equal
to the derived open `close / (1 + pct_from_open)` taken from the snapshot
row of its ticker. -/
theorem C3_same_day_never_evaluated_and_market_fill_price (c : Int → Rat → Rat)
    (book : OrderBook) (data : Snapshot) (d : Nat) (cash : Rat) :
    (∀ f ∈ (execute_orders c book data d cash).fills, f.initiated_at < d)
    ∧ (∀ o ∈ book.sellOpen, d ≤ o.initiated_at →
        o ∈ (execute_orders c book data d cash).book.sellOpen)
    ∧ (∀ o ∈ book.buyOpen, d ≤ o.initiated_at →
        o ∈ (execute_orders c book data d cash).book.buyOpen)
    ∧ (∀ f ∈ (execute_orders c book data d cash).fills, f.kind = .market →
        ∃ row, data.lookup f.ticker = some row ∧
          f.fill_price = some (row.price / (1 + row.fromOpen))) := by
  refine ⟨?_, ?_, ?_, ?_⟩
  · intro f hf
    obtain ⟨o, _, hso⟩ := execute_orders_fills_spec hf
    obtain ⟨hd, row, hrow, hcase⟩ := stepOrder_fill_spec hso
    rcases hcase with ⟨_, _, rfl⟩ | ⟨lp, tif, _, _, _, _, rfl⟩ <;>
      simpa [fillOrder] using hd
  · intro o ho hd
    exact execute_orders_mem_sellOpen ho (Or.inl (stepOrder_skip hd))
  · intro o ho hd
    exact execute_orders_mem_buyOpen ho (Or.inl (stepOrder_skip hd))
  · intro f hf hmkt
    obtain ⟨o, _, hso⟩ := execute_orders_fills_spec hf
    obtain ⟨hd, row, hrow, hcase⟩ := stepOrder_fill_spec hso
    rcases hcase with ⟨hk, _, rfl⟩ | ⟨lp, tif, hk, _, _, _, rfl⟩
    · exact ⟨row, hrow, rfl⟩
    · rw [show (fillOrder c d lp o).kind = o.kind from rfl, hk] at hmkt
      cases hmkt

/-- Witness for C3 on a concrete book holding a same-day order and a
day-old market order: the fill was initiated before day 2, the same-day
order is still OPEN, and the fill price is the derived open of AAA. -/
theorem C3_same_day_never_evaluated_and_market_fill_price_witness :
    (fillOrder zeroCommission 2 50 mktA1).initiated_at < 2 ∧
    sameDayA ∈ (execute_orders zeroCommission bookSameDay snapA 2 1000).book.buyOpen ∧
    ∃ row, snapA.lookup (fillOrder zeroCommission 2 50 mktA1).ticker = some row ∧
      (fillOrder zeroCommission 2 50 mktA1).fill_price = some (row.price / (1 + row.fromOpen)) := by
  have h := C3_same_day_never_evaluated_and_market_fill_price zeroCommission
    bookSameDay snapA 2 1000
  have hmem : fillOrder zeroCommission 2 50 mktA1 ∈
      (execute_orders zeroCommission bookSameDay snapA 2 1000).fills := by
    norm_num [execute_orders, processBucket, stepOrder, verify_funds, fillOrder,
      Snapshot.lookup, is_business_day, bdate_range_count, weekdayIndex,
      bookSameDay, snapA, mktA1, sameDayA, zeroCommission]
  refine ⟨h.1 _ hmem, h.2.2.1 sameDayA ?_ ?_, h.2.2.2 _ hmem rfl⟩
  · norm_num [bookSameDay]
  · norm_num [sameDayA]

/-- C4: every limit order filled by a call to `execute_orders` fills at
exactly its limit price, with the funds check passed and the limit price
inside the derived [open, close] range of the day; a limit order whose
limit price is outside that range stays in its OPEN bucket (the CANCELLED
buckets are never touched). -/
theorem C4_limit_fill_rule (c : Int → Rat → Rat) (book : OrderBook) (data : Snapshot)
    (d : Nat) (cash : Rat) :
    (∀ f ∈ (execute_orders c book data d cash).fills, ∀ lp tif,
        f.kind = .limit lp tif →
        f.fill_price = some lp ∧
        verify_funds c f.quantity lp cash = true ∧
        ∃ row, data.lookup f.ticker = some row ∧
          row.price / (1 + row.fromOpen) ≤ lp ∧ lp ≤ row.price)
    ∧ (∀ o lp tif row, o.kind = .limit lp tif → o.initiated_at < d →
        data.lookup o.ticker = some row →
        ¬(row.price / (1 + row.fromOpen) ≤ lp ∧ lp ≤ row.price) →
        ((o ∈ book.sellOpen → o ∈ (execute_orders c book data d cash).book.sellOpen) ∧
         (o ∈ book.buyOpen → o ∈ (execute_orders c book data d cash).book.buyOpen)))
    ∧ (execute_orders c book data d cash).book.sellCancelled = book.sellCancelled
    ∧ (execute_orders c book data d cash).book.buyCancelled = book.buyCancelled := by
  refine ⟨?_, ?_, (execute_orders_cancelled_unchanged c book data d cash).1,
    (execute_orders_cancelled_unchanged c book data d cash).2⟩
  · intro f hf lp tif hlim
    obtain ⟨o, _, hso⟩ := execute_orders_fills_spec hf
    obtain ⟨hd, row, hrow, hcase⟩ := stepOrder_fill_spec hso
    rcases hcase with ⟨hk, _, rfl⟩ | ⟨lp0, tif0, hk, hv, hlow, hhigh, rfl⟩
    · rw [show (fillOrder c d (row.price / (1 + row.fromOpen)) o).kind = o.kind from rfl,
        hk] at hlim
      cases hlim
    · rw [show (fillOrder c d lp0 o).kind = o.kind from rfl, hk] at hlim
      obtain ⟨rfl, rfl⟩ := OrderKind.limit.inj hlim
      exact ⟨rfl, hv, row, hrow, hlow, hhigh⟩
  · intro o lp tif row hk hd hrow hout
    exact ⟨fun ho => execute_orders_mem_sellOpen ho
        (Or.inr (stepOrder_keep_of_limit_out_of_range hk hd hrow hout)),
      fun ho => execute_orders_mem_buyOpen ho
        (Or.inr (stepOrder_keep_of_limit_out_of_range hk hd hrow hout))⟩

/-- Witness for C4 on the concrete book of two limit orders against
`snapB` (open 44, close 46): the in-range limit 45 fills at 45, and the
out-of-range limit 40 is still OPEN after the call. -/
theorem C4_limit_fill_rule_witness :
    (fillOrder zeroCommission 2 45 limIn).fill_price = some 45 ∧
    limOut ∈ (execute_orders zeroCommission bookLimits snapB 2 1000).book.buyOpen := by
  have h := C4_limit_fill_rule zeroCommission bookLimits snapB 2 1000
  have hmem : fillOrder zeroCommission 2 45 limIn ∈
      (execute_orders zeroCommission bookLimits snapB 2 1000).fills := by
    norm_num [execute_orders, processBucket, stepOrder, verify_funds, fillOrder,
      Snapshot.lookup, is_business_day, bdate_range_count, weekdayIndex,
      bookLimits, snapB, limIn, limOut, zeroCommission]
  refine ⟨(h.1 _ hmem 45 .DAY rfl).1,
    (h.2.1 limOut 40 .GTC ⟨46, 1/22⟩ rfl ?_ ?_ ?_).2 ?_⟩
  · norm_num [limOut]
  · norm_num [Snapshot.lookup, snapB, limOut]
  · norm_num
  · norm_num [bookLimits]

/-- C1: in every equity curve reachable from the seeded curve by applying
fills, every recorded entry — the seed and every entry written or updated
by `update_on_order` — has its Total Value equal to its Cash plus its
Equity. -/
theorem C1_ledger_total_is_cash_plus_equity (cur : EquityCurve)
    (h : ReachableCurve cur) :
    ∀ e ∈ cur.entries, e.total_value = e.cash + e.equity := by
  induction h with
  | init start cash =>
    intro e he
    simp only [statsInit, EquityCurve.entries, List.mem_cons, List.not_mem_nil,
      or_false] at he
    subst he
    simp
  | step cur d o hr ih =>
    intro e he
    simp only [update_on_order] at he
    split at he
    · simp only [EquityCurve.entries, List.mem_cons, List.mem_map] at he
      rcases he with rfl | ⟨r, hrmem, hre⟩
      · exact ih _ (List.mem_cons_self _ _)
      · by_cases hdate : r.date = d
        · rw [if_pos hdate] at hre
          subst hre
          rfl
        · rw [if_neg hdate] at hre
          subst hre
          exact ih _ (List.mem_cons_of_mem _ hrmem)
    · simp only [EquityCurve.entries, List.mem_cons, List.mem_append,
        List.not_mem_nil, or_false] at he
      rcases he with rfl | he | rfl
      · exact ih _ (List.mem_cons_self _ _)
      · exact ih _ (List.mem_cons_of_mem _ he)
      · rfl

/-- Witness for C1 on the curve obtained by applying one SELL fill (10
shares at 50, commission 3) to a curve seeded with cash 1000: the written
entry is (cash 1497, equity -500, total 997) and 997 = 1497 + (-500). -/
theorem C1_ledger_total_is_cash_plus_equity_witness :
    (⟨2, 1497, -500, 997, 3⟩ : LedgerEntry) ∈
      (update_on_order (statsInit 1 1000) 2 sellFillLedger).entries ∧
    (997 : Rat) = 1497 + -500 := by
  have hmem : (⟨2, 1497, -500, 997, 3⟩ : LedgerEntry) ∈
      (update_on_order (statsInit 1 1000) 2 sellFillLedger).entries := by
    norm_num [update_on_order, statsInit, lastEntry, EquityCurve.entries, sellFillLedger]
  exact ⟨hmem, C1_ledger_total_is_cash_plus_equity _
    (.step _ _ _ (.init 1 1000)) _ hmem⟩

/-- C5: the claim (and the spec) prescribe the quantity-weighted average
cost basis on a BUY fill against an existing holding; the source instead
computes `Price / Quantity + fill_price / quantity`.  At the failing
input — holding of 2 shares, Price = Cost = 10, BUY fill of 3 shares at
20 — the source produces 10/2 + 20/3 = 35/3 while the weighted average is
(10*2 + 20*3) / 5 = 16, and 35/3 is not 16.  The spec flags the source
formula as a bug (sections 4.3 and 9), so the code, not the claim, is
wrong here. -/
theorem C5_cost_basis_formula_diverges_from_weighted_average :
    (processOrderPortfolio pfAAA buyFillAAA).lookup "AAA" = some ⟨20, 5, 35/3⟩ ∧
    spec_weighted_avg_cost 10 2 20 3 = 16 ∧
    ((35 : Rat)/3 ≠ 16) := by
  refine ⟨?_, ?_, by norm_num⟩
  · norm_num [processOrderPortfolio, Portfolio.lookup, Portfolio.replace, pfAAA,
      buyFillAAA]
  · norm_num [spec_weighted_avg_cost]

/-- Counterexample to C6 as stated: on a book with one fillable open SELL
and one fillable open BUY, the executed list of the call — which records
fills in evaluation order — is SELL first, then BUY, so the SELL-bucket
order was evaluated before the BUY-bucket order, not after it. -/
theorem C6_buy_before_sell_counterexample :
    ((execute_orders zeroCommission bookSellBuy snapA 2 1000).fills.map
      (fun f => f.action)) = [Action.SELL, Action.BUY] := by
  norm_num [execute_orders, processBucket, stepOrder, verify_funds, fillOrder,
    Snapshot.lookup, is_business_day, bdate_range_count, weekdayIndex,
    bookSellBuy, snapA, sellA, mktA1, zeroCommission]

/-- C6 (amended): within every call to `execute_orders`, all OPEN orders
of the SELL bucket are evaluated before any OPEN order of the BUY bucket
(the `Action` enum declares SELL first and the loop follows declaration
order): the executed list splits into the SELL fills followed by the BUY
fills. -/
theorem C6_sell_bucket_evaluated_before_buy_bucket (c : Int → Rat → Rat)
    (book : OrderBook) (data : Snapshot) (d : Nat) (cash : Rat)
    (hs : ∀ o ∈ book.sellOpen, o.action = .SELL)
    (hb : ∀ o ∈ book.buyOpen, o.action = .BUY) :
    ∃ s b, (execute_orders c book data d cash).fills = s ++ b ∧
      (∀ f ∈ s, f.action = .SELL) ∧ (∀ f ∈ b, f.action = .BUY) := by
  unfold execute_orders
  split
  · exact ⟨[], [], rfl, by simp, by simp⟩
  · simp only
    split
    · refine ⟨_, [], (List.append_nil _).symm, ?_, by simp⟩
      intro f hf
      obtain ⟨o, ho, hact⟩ := processBucket_fills_action _ f hf
      rw [hact]; exact hs o ho
    · refine ⟨_, _, rfl, ?_, ?_⟩
      · intro f hf
        obtain ⟨o, ho, hact⟩ := processBucket_fills_action _ f hf
        rw [hact]; exact hs o ho
      · intro f hf
        obtain ⟨o, ho, hact⟩ := processBucket_fills_action _ f hf
        rw [hact]; exact hb o ho

/-- Witness for the amended C6 on the concrete sell-and-buy book. -/
theorem C6_sell_bucket_evaluated_before_buy_bucket_witness :
    ∃ s b, (execute_orders zeroCommission bookSellBuy snapA 2 1000).fills = s ++ b ∧
      (∀ f ∈ s, f.action = .SELL) ∧ (∀ f ∈ b, f.action = .BUY) :=
  C6_sell_bucket_evaluated_before_buy_bucket zeroCommission bookSellBuy snapA 2 1000
    (by norm_num [bookSellBuy, sellA]) (by norm_num [bookSellBuy, mktA1])

/-- Counterexample to C7 as stated: an order with quantity 0 and empty
ticker — invalid on both of the claimed checks — is accepted by
`place_order` and lands in the BUY OPEN bucket; the source performs no
validation at all. -/
theorem C7_invalid_order_enters_book_counterexample :
    badOrder.quantity ≤ 0 ∧ badOrder.ticker = "" ∧
    (place_order emptyBook badOrder).buyOpen = [badOrder] := by
  refine ⟨by norm_num [badOrder], rfl, ?_⟩
  simp [place_order, emptyBook, badOrder]

/-- C7 (amended): `place_order` validates nothing: every order, valid or
not, is appended to the OPEN bucket of its action, preserving submission
order. -/
theorem C7_place_order_appends_without_validation (book : OrderBook) (o : Order) :
    (place_order book o).openBucket o.action = book.openBucket o.action ++ [o] := by
  cases ho : o.action <;> simp [place_order, ho, OrderBook.openBucket]

/-- Counterexample to C8 as stated: with an absent-ticker order ahead of
a fillable SELL, the call raises `KeyError` (does not return normally)
and the fillable order is not evaluated — the same order fills when the
absent-ticker order is removed from the book. -/
theorem C8_missing_ticker_not_contained_counterexample :
    (execute_orders zeroCommission bookBadFirst snapA 2 1000).err =
      some (.keyError "ZZZ") ∧
    (execute_orders zeroCommission bookBadFirst snapA 2 1000).fills = [] ∧
    (execute_orders zeroCommission bookGoodOnly snapA 2 1000).fills =
      [fillOrder zeroCommission 2 50 sellA] := by
  norm_num [execute_orders, processBucket, stepOrder, verify_funds, fillOrder,
    Snapshot.lookup, is_business_day, bdate_range_count, weekdayIndex,
    bookBadFirst, bookGoodOnly, snapA, badTickerOrder, sellA, zeroCommission,
    (show ("AAA":String) ≠ "ZZZ" from of_decide_eq_true rfl)]

/-- C8 (amended): when on a trading day the first open order of the SELL
bucket was initiated before the call date but its ticker is absent from
the snapshot, the uncaught pandas `KeyError` aborts the call: the order
book is unchanged (the order stays OPEN), nothing fills — the remaining
orders are never evaluated — and the error escapes instead of a normal
return. -/
theorem C8_missing_ticker_keyerror_aborts_call (c : Int → Rat → Rat)
    (book : OrderBook) (data : Snapshot) (d : Nat) (cash : Rat) (o : Order)
    (rest : List Order)
    (hbd : is_business_day d = true)
    (hsell : book.sellOpen = o :: rest)
    (hd : o.initiated_at < d)
    (hl : data.lookup o.ticker = none) :
    execute_orders c book data d cash = ⟨book, [], some (.keyError o.ticker)⟩ := by
  obtain ⟨so, sc, scan, bo, bc, bcan⟩ := book
  simp only at hsell
  subst hsell
  unfold execute_orders
  rw [if_neg (by simp [hbd])]
  rw [show processBucket c data d cash (o :: rest) =
    ⟨o :: rest, [], some (.keyError o.ticker)⟩ from processBucket_keyError hd hl]
  simp

/-- Witness for the amended C8 on the concrete bad-ticker book. -/
theorem C8_missing_ticker_keyerror_aborts_call_witness :
    execute_orders zeroCommission bookBadFirst snapA 2 1000 =
      ⟨bookBadFirst, [], some (.keyError "ZZZ")⟩ := by
  exact C8_missing_ticker_keyerror_aborts_call zeroCommission bookBadFirst snapA 2 1000
    badTickerOrder [sellA] (by decide) rfl (by norm_num [badTickerOrder])
    (by simp [Snapshot.lookup, snapA, badTickerOrder])

/-- C9: a call to `execute_orders` on a non-business day returns the
empty executed list at once, raises nothing, and leaves the order book
completely unchanged. -/
theorem C9_non_trading_day_returns_empty_book_unchanged (c : Int → Rat → Rat)
    (book : OrderBook) (data : Snapshot) (d : Nat) (cash : Rat)
    (h : is_business_day d = false) :
    execute_orders c book data d cash = ⟨book, [], none⟩ := by
  unfold execute_orders
  rw [if_pos (by simp [h])]

/-- Witness for C9 on ordinal 6, a Saturday, with a non-empty book. -/
theorem C9_non_trading_day_returns_empty_book_unchanged_witness :
    is_business_day 6 = false ∧
    execute_orders zeroCommission bookSellBuy snapA 6 1000 = ⟨bookSellBuy, [], none⟩ :=
  ⟨by decide, C9_non_trading_day_returns_empty_book_unchanged zeroCommission
    bookSellBuy snapA 6 1000 (by decide)⟩

/-- C10: `is_business_day` is true exactly on Mondays through Fridays —
it consults no holiday calendar — so `execute_orders` treats every
weekday as a trading day: on 2021-12-24, a Friday on which the NYSE was
closed for Christmas, the engine still evaluates and fills an open
order. -/
theorem C10_every_weekday_is_a_trading_day :
    (∀ d, is_business_day d = true ↔
      (dayOfWeek d ≠ .saturday ∧ dayOfWeek d ≠ .sunday))
    ∧ dayOfWeek (dateOrdinal 2021 12 24) = .friday
    ∧ is_business_day (dateOrdinal 2021 12 24) = true
    ∧ (execute_orders zeroCommission bookHoliday snapA (dateOrdinal 2021 12 24) 1000).fills =
        [fillOrder zeroCommission (dateOrdinal 2021 12 24) 50 mktHoliday] := by
  refine ⟨?_, by decide, by decide, ?_⟩
  · intro d
    have h7 : weekdayIndex d < 7 := Nat.mod_lt _ (by norm_num)
    have hcases : weekdayIndex d = 0 ∨ weekdayIndex d = 1 ∨ weekdayIndex d = 2 ∨
        weekdayIndex d = 3 ∨ weekdayIndex d = 4 ∨ weekdayIndex d = 5 ∨
        weekdayIndex d = 6 := by omega
    rcases hcases with h | h | h | h | h | h | h <;>
      simp [is_business_day, bdate_range_count, dayOfWeek, h]
  · norm_num [execute_orders, processBucket, stepOrder, verify_funds, fillOrder,
      Snapshot.lookup, is_business_day, bdate_range_count, weekdayIndex,
      bookHoliday, snapA, mktHoliday, zeroCommission, dateOrdinal, daysBeforeYear,
      daysBeforeMonth, isLeapYear]

end Backtest
